import Mathlib

set_option maxRecDepth 1000000

/-!
Shallow embedding of the two scripts of this repository,
`src/validate_inventory.py` and `src/simplify_catalogs.py`, together with
theorems settling the frozen claims about them.

Python strings are modelled as Lean `String` (a list of unicode scalar
values, matching Python code points for the ASCII data these scripts
handle); every regular-expression operation of the source is translated,
for its specific pattern, into an explicit scanner on `List Char` with the
same leftmost / greedy / lazy backtracking semantics.  File I/O and console
printing are out of scope: each embedded function takes the file contents
it would have read as an explicit argument.
-/

namespace Catalog

/-- ASCII whitespace: the characters matched by the regex class backslash-s
and stripped by Python `str.strip()` on ASCII text. -/
def pyIsSpace (c : Char) : Bool :=
  c == ' ' || c == '\t' || c == '\n' || c == '\r' || c == '\x0b' || c == '\x0c'

/-- ASCII decimal digit, the regex class backslash-d on ASCII text. -/
def pyIsDigit (c : Char) : Bool :=
  '0' ≤ c && c ≤ '9'

/-- ASCII word character, the regex class backslash-w on ASCII text. -/
def pyIsWord (c : Char) : Bool :=
  ('a' ≤ c && c ≤ 'z') || ('A' ≤ c && c ≤ 'Z') || pyIsDigit c || c == '_'

/-- Python `str.strip()` on a character list. -/
def stripChars (cs : List Char) : List Char :=
  ((cs.dropWhile pyIsSpace).reverse.dropWhile pyIsSpace).reverse

/-- Python `str.strip()`. -/
def pyStrip (s : String) : String :=
  ⟨stripChars s.data⟩

/-- Python `str.upper()` restricted to ASCII: maps a-z to A-Z and leaves
every other character unchanged. -/
def pyUpperChar (c : Char) : Char :=
  if 'a' ≤ c && c ≤ 'z' then Char.ofNat (c.toNat - 32) else c

/-- Python `str.upper()` on ASCII text. -/
def pyUpper (s : String) : String :=
  ⟨s.data.map pyUpperChar⟩

/-- Python string comparison: lexicographic on code points, a strict prefix
is smaller. -/
def ltChars : List Char → List Char → Bool
  | _, [] => false
  | [], _ :: _ => true
  | a :: as, b :: bs =>
    if a.toNat < b.toNat then true
    else if b.toNat < a.toNat then false
    else ltChars as bs

/-- Python `<` on strings. -/
def pyLt (a b : String) : Bool :=
  ltChars a.data b.data

/-- The non-strict order induced by `pyLt`; `sorted(...)` output is sorted
with respect to it. -/
def pyLe (a b : String) : Prop :=
  ltChars b.data a.data = false

instance : DecidableRel pyLe := fun a b =>
  inferInstanceAs (Decidable (ltChars b.data a.data = false))

/-- Python `int(...)` on a string of decimal digits. -/
def digitsToNat (ds : List Char) : Nat :=
  ds.foldl (fun n c => n * 10 + (c.toNat - 48)) 0

/-- Matches `lit` as a prefix of the input and returns the remainder. -/
def dropLit : List Char → List Char → Option (List Char)
  | [], cs => some cs
  | _ :: _, [] => none
  | l :: ls, c :: cs => if c == l then dropLit ls cs else none

/-- Remainder after the first (leftmost) occurrence of `lit`, scanning one
position at a time as `re.search` does. -/
def dropAfterLit (lit : List Char) : List Char → Option (List Char)
  | [] => dropLit lit []
  | c :: cs =>
    match dropLit lit (c :: cs) with
    | some rest => some rest
    | none => dropAfterLit lit cs

/-- Python `lit in s` substring test. -/
def containsLit (lit : List Char) (cs : List Char) : Bool :=
  (dropAfterLit lit cs).isSome

/-- Lazy `.*?` followed by a suffix matcher: scans forward for the first
position where `stop` succeeds and returns what `stop` leaves over. -/
def lazyUntil (stop : List Char → Option (List Char)) : List Char → Option (List Char)
  | [] => stop []
  | c :: cs =>
    match stop (c :: cs) with
    | some rest => some rest
    | none => lazyUntil stop cs

/-- Characters before the first occurrence of `stop` (the lazy capture of
`(.*?)(?=stop|...)` when `stop` occurs). -/
def captureUpTo (stop : List Char) : List Char → List Char
  | [] => []
  | c :: cs =>
    match dropLit stop (c :: cs) with
    | some _ => []
    | none => c :: captureUpTo stop cs

/-- Lazy capture of `(.*?)(?=stop|$)` (with `re.DOTALL`, no `re.MULTILINE`):
up to the first occurrence of `stop`, or, when `stop` is absent, up to the
end of the text, excluding a single final newline (Python `$`). -/
def pyLazyCapture (stop : List Char) (cs : List Char) : List Char :=
  if containsLit stop cs then captureUpTo stop cs
  else
    match cs.getLast? with
    | some c => if c == '\n' then cs.dropLast else cs
    | none => cs

/-- Python `str.split(sep)` scanning, with enough fuel. -/
def splitOnLitAux (lit : List Char) : Nat → List Char → List Char → List (List Char)
  | 0, acc, cs => [acc.reverse ++ cs]
  | _ + 1, acc, [] => [acc.reverse]
  | fuel + 1, acc, c :: cs =>
    match dropLit lit (c :: cs) with
    | some rest => acc.reverse :: splitOnLitAux lit fuel [] rest
    | none => splitOnLitAux lit fuel (c :: acc) cs

/-- Python `str.split(sep)` for a non-empty literal separator. -/
def splitOnLit (lit : List Char) (cs : List Char) : List (List Char) :=
  splitOnLitAux lit (cs.length + 1) [] cs

/-- Python `str.split(c)` on a single newline, used for `.split(chr(10))`. -/
def splitLines : List Char → List (List Char)
  | [] => [[]]
  | c :: cs =>
    if c == '\n' then [] :: splitLines cs
    else
      match splitLines cs with
      | [] => [[c]]
      | l :: ls => (c :: l) :: ls

/-- Embeds `re.search` for a matcher returning (capture, remainder): the capture at
the leftmost position where the matcher succeeds. -/
def searchFirst (m : List Char → Option (List Char × List Char)) : List Char → Option (List Char)
  | [] => (m []).map Prod.fst
  | c :: cs =>
    match m (c :: cs) with
    | some g => some g.1
    | none => searchFirst m cs

/-- Embeds `re.findall` for such a matcher: leftmost non-overlapping matches,
scanning resumes after each match end. -/
def findAllAux (m : List Char → Option (List Char × List Char)) : Nat → List Char → List (List Char)
  | 0, _ => []
  | _ + 1, [] => []
  | fuel + 1, c :: cs =>
    match m (c :: cs) with
    | some g => g.1 :: findAllAux m fuel g.2
    | none => findAllAux m fuel cs

/-- Embeds `re.sub` for a matcher returning (replacement, remainder): leftmost
non-overlapping matches are replaced, scanning resumes after each match. -/
def subAll (m : List Char → Option (List Char × List Char)) : Nat → List Char → List Char
  | 0, cs => cs
  | _ + 1, [] => []
  | fuel + 1, c :: cs =>
    match m (c :: cs) with
    | some g => g.1 ++ subAll m fuel g.2
    | none => c :: subAll m fuel cs

instance {ε α : Type} [DecidableEq ε] [DecidableEq α] : DecidableEq (Except ε α) := fun x y =>
  match x, y with
  | Except.ok a, Except.ok b =>
    if h : a = b then isTrue (congrArg Except.ok h)
    else isFalse (fun q => h (Except.ok.inj q))
  | Except.error a, Except.error b =>
    if h : a = b then isTrue (congrArg Except.error h)
    else isFalse (fun q => h (Except.error.inj q))
  | Except.ok _, Except.error _ => isFalse (fun q => Except.noConfusion q)
  | Except.error _, Except.ok _ => isFalse (fun q => Except.noConfusion q)

/-- Python dict lookup for a dict built by repeated assignment from an
association list: the value of the last assignment to the key. -/
def pyDictGet {α : Type} (l : List (String × α)) (k : String) : Option α :=
  ((l.filter (fun e => e.1 == k)).getLast?).map Prod.snd

/-! Data model of `validate_inventory.py`.

One product dict: the HTML parser (`parse_html_file`) only appends a
product once its name marker matched, and the text parser
(`parse_inventory_before`) only appends lines carrying both a code and a
name, so the `name` key is always present; the `hcpcs` key is optional. -/

/-- A product dict of `validate_inventory.py`. -/
structure Product where
  name : String
  hcpcs : Option String
deriving DecidableEq

/-- The per-file dict built by `parse_inventory_before` (lines 171-178). -/
structure BeforeData where
  num_categories : Nat
  num_products : Nat
  num_unique_hcpcs : Nat
  categories : List String
  hcpcs_codes : List String
  products : List Product
deriving DecidableEq

/-- The dict returned by `parse_html_file` (lines 114-119). -/
structure AfterData where
  categories : List String
  products : List Product
  num_categories : Nat
  num_products : Nat
deriving DecidableEq

/-- The comparison dict built by `compare_inventories` (lines 184-231). -/
structure Comparison where
  file : String
  categories_match : Bool
  products_match : Bool
  missing_categories : List String
  missing_hcpcs : List String
  missing_products : List String
  extra_categories : List String
  extra_hcpcs : List String
  extra_products : List String
  before_num_categories : Nat
  after_num_categories : Nat
  before_num_products : Nat
  after_num_products : Nat
  all_match : Bool
deriving DecidableEq

/-- Codes attached to the after-side products:
`[p[hcpcs] for p in after_data[products] if hcpcs in p]` (line 208). -/
def afterCodes (a : AfterData) : List String :=
  a.products.filterMap Product.hcpcs

/-- Embeds `sorted(set(xs) - set(ys))` for Python string sets: the sorted list of
the distinct elements of `xs` that are not in `ys`. -/
def sortedSetDiff (xs ys : List String) : List String :=
  List.insertionSort pyLe ((xs.filter (fun c => !(ys.contains c))).dedup)

/-- The keys of the dict comprehension on uppercased names (lines 214-215). -/
def upperKeys (ps : List Product) : List String :=
  ps.map (fun p => pyUpper p.name)

/-- The value held by the Python dict comprehension at key `u`: the last
product whose uppercased name is `u` (later entries overwrite earlier). -/
def dictLast (ps : List Product) (u : String) : Option Product :=
  (ps.filter (fun p => pyUpper p.name == u)).getLast?

/-- Embeds `compare_inventories` of `validate_inventory.py`, lines 182-233. -/
def compare_inventories (before : BeforeData) (after : AfterData) (file : String) : Comparison :=
  let categories_match := before.num_categories == after.num_categories
  let products_match := before.num_products == after.num_products
  let missing_hcpcs := sortedSetDiff before.hcpcs_codes (afterCodes after)
  let extra_hcpcs := sortedSetDiff (afterCodes after) before.hcpcs_codes
  let missing_product_names := sortedSetDiff (upperKeys before.products) (upperKeys after.products)
  let missing_products :=
    missing_product_names.filterMap (fun u => (dictLast before.products u).map Product.name)
  let extra_product_names := sortedSetDiff (upperKeys after.products) (upperKeys before.products)
  let extra_products :=
    extra_product_names.filterMap (fun u => (dictLast after.products u).map Product.name)
  let all_match := categories_match && products_match
      && (missing_hcpcs.length == 0) && (extra_hcpcs.length == 0)
      && (missing_products.length == 0) && (extra_products.length == 0)
  { file := file
    categories_match := categories_match
    products_match := products_match
    missing_categories := []
    missing_hcpcs := missing_hcpcs
    missing_products := missing_products
    extra_categories := []
    extra_hcpcs := extra_hcpcs
    extra_products := extra_products
    before_num_categories := before.num_categories
    after_num_categories := after.num_categories
    before_num_products := before.num_products
    after_num_products := after.num_products
    all_match := all_match }

/-- The view of a before-side dict that `compare_inventories` reads when it
is passed as the `after_data` argument (Python is duck-typed: only the
`categories`, `products` and count keys of `after_data` are accessed). -/
def BeforeData.asAfter (b : BeforeData) : AfterData :=
  { categories := b.categories
    products := b.products
    num_categories := b.num_categories
    num_products := b.num_products }

/-- Modelled from the spec for the refinement claim C1: the spec asks for
the before-side code set to be built from the codes attached to
`before.products` (the snapshot's own product list), the after-side set
from `after.products`, with `missingCodes = before - after` sorted. -/
def specMissingCodes (before : BeforeData) (after : AfterData) : List String :=
  sortedSetDiff (before.products.filterMap Product.hcpcs) (afterCodes after)

/-- The lines that `generate_report` appends for the missing-products block
of one catalog (`validate_inventory.py` lines 320-327). -/
def missingProductsBlock (c : Comparison) : List String :=
  if c.missing_products.isEmpty then []
  else
    (("  ✗ MISSING PRODUCTS (") ++ toString c.missing_products.length ++ ("):"))
    :: ((c.missing_products.take 10).map (fun p => ("    - ") ++ p)
      ++ (if c.missing_products.length > 10 then
            [("    ... and ") ++ toString (c.missing_products.length - 10) ++ (" more")]
          else [])
      ++ [("")])

/-- The lines that `generate_report` appends for the extra-products block
of one catalog (`validate_inventory.py` lines 329-336). -/
def extraProductsBlock (c : Comparison) : List String :=
  if c.extra_products.isEmpty then []
  else
    (("  ! EXTRA PRODUCTS (") ++ toString c.extra_products.length ++ ("):"))
    :: ((c.extra_products.take 10).map (fun p => ("    - ") ++ p)
      ++ (if c.extra_products.length > 10 then
            [("    ... and ") ++ toString (c.extra_products.length - 10) ++ (" more")]
          else [])
      ++ [("")])

/-! Extractor: `parse_html_file` of `validate_inventory.py`, lines 84-119. -/

/-- One attempt of the category regex
`<div class="category-header">\s*([^<]+)\s*</div>` at the current position.
After the literal, the match region up to the closing tag is exactly the
maximal run `R` of characters other than `<` (both `\s` and `[^<]` exclude
`<`, and `</div>` begins with `<`); the match needs `R` non-empty and
`</div>` right after it.  The greedy leading `\s*` takes the whole
whitespace prefix `W` of `R` when something follows it, otherwise it backs
off one character so that `([^<]+)` captures the last whitespace character.
Returns (group 1, remainder after the match). -/
def categoryMatchAt (cs : List Char) : Option (List Char × List Char) :=
  match dropLit (("<div class=\x22category-header\x22>").data) cs with
  | none => none
  | some rest =>
    let R := rest.takeWhile (fun c => !(c == '<'))
    if R.isEmpty then none
    else
      match dropLit (("</div>").data) (rest.drop R.length) with
      | none => none
      | some rem =>
        let W := R.takeWhile pyIsSpace
        let g := if W.length < R.length then R.drop W.length else R.drop (R.length - 1)
        some (g, rem)

/-- One attempt of `<div class="product-name">([^<]+)</div>` at the current
position (no surrounding `\s*`, so group 1 is the whole run). -/
def nameMatchAt (cs : List Char) : Option (List Char × List Char) :=
  match dropLit (("<div class=\x22product-name\x22>").data) cs with
  | none => none
  | some rest =>
    let R := rest.takeWhile (fun c => !(c == '<'))
    if R.isEmpty then none
    else
      match dropLit (("</div>").data) (rest.drop R.length) with
      | none => none
      | some rem => some (R, rem)

/-- One attempt of `<span class="hcpcs-code">([^<]+)</span>` at the current
position. -/
def hcpcsMatchAt (cs : List Char) : Option (List Char × List Char) :=
  match dropLit (("<span class=\x22hcpcs-code\x22>").data) cs with
  | none => none
  | some rest =>
    let R := rest.takeWhile (fun c => !(c == '<'))
    if R.isEmpty then none
    else
      match dropLit (("</span>").data) (rest.drop R.length) with
      | none => none
      | some rem => some (R, rem)

/-- The body of the per-card loop of `parse_html_file` (lines 101-112): a
card contributes a product only when the name regex matches somewhere in
it; the code regex is searched independently and its group stripped. -/
def parseCard (card : List Char) : Option Product :=
  match searchFirst nameMatchAt card with
  | none => none
  | some g =>
    some { name := pyStrip ⟨g⟩
           hcpcs := (searchFirst hcpcsMatchAt card).map (fun h => pyStrip ⟨h⟩) }

/-- Embeds `parse_html_file` of `validate_inventory.py` (lines 84-119), applied to
the file contents it would have read. -/
def parse_html_file (content : String) : AfterData :=
  let categories :=
    (findAllAux categoryMatchAt content.data.length content.data).map (fun g => pyStrip ⟨g⟩)
  let cards := splitOnLit (("<div class=\x22product-card\x22>").data) content.data
  let products := cards.tail.filterMap parseCard
  { categories := categories
    products := products
    num_categories := categories.length
    num_products := products.length }

/-! Snapshot reader: `parse_inventory_before` of `validate_inventory.py`,
lines 121-180. -/

/-- One attempt of the statistics regex
`STATISTICS:\s+Total categories: (\d+)\s+Total products: (\d+)\s+Unique
HCPCS codes: (\d+)` at the current position.  Each greedy `\s+` must reach
the following literal exactly at the end of the maximal whitespace run, and
each `(\d+)` is the maximal digit run. -/
def statsMatchAt (cs : List Char) : Option (Nat × Nat × Nat) :=
  match dropLit (("STATISTICS:").data) cs with
  | none => none
  | some r1 =>
    let w1 := r1.takeWhile pyIsSpace
    if w1.isEmpty then none
    else
      match dropLit (("Total categories: ").data) (r1.drop w1.length) with
      | none => none
      | some r2 =>
        let d1 := r2.takeWhile pyIsDigit
        if d1.isEmpty then none
        else
          let w2 := (r2.drop d1.length).takeWhile pyIsSpace
          if w2.isEmpty then none
          else
            match dropLit (("Total products: ").data) ((r2.drop d1.length).drop w2.length) with
            | none => none
            | some r3 =>
              let d2 := r3.takeWhile pyIsDigit
              if d2.isEmpty then none
              else
                let w3 := (r3.drop d2.length).takeWhile pyIsSpace
                if w3.isEmpty then none
                else
                  match dropLit (("Unique HCPCS codes: ").data) ((r3.drop d2.length).drop w3.length) with
                  | none => none
                  | some r4 =>
                    let d3 := r4.takeWhile pyIsDigit
                    if d3.isEmpty then none
                    else some (digitsToNat d1, digitsToNat d2, digitsToNat d3)

/-- Embeds the `re.search` of the statistics regex over a section (line 136). -/
def searchStats : List Char → Option (Nat × Nat × Nat)
  | [] => statsMatchAt []
  | c :: cs =>
    match statsMatchAt (c :: cs) with
    | some r => some r
    | none => searchStats cs

/-- Embeds `re.match(r'\s*\d+\.\s+(.+)', line)` followed by `.strip()` of group 1
(lines 144-146).  After the index and dot there must be at least one
whitespace character; `(.+)` then captures the rest of the line when it is
non-empty, else (when at least two whitespace characters remain) the
greedy-backed-off `\s+` leaves exactly the final whitespace character for
`(.+)`, which strips to the empty string. -/
def matchIndexedLine (line : List Char) : Option String :=
  let r1 := line.dropWhile pyIsSpace
  let ds := r1.takeWhile pyIsDigit
  if ds.isEmpty then none
  else
    match r1.drop ds.length with
    | '.' :: r2 =>
      let w := r2.takeWhile pyIsSpace
      let rest := r2.drop w.length
      if w.isEmpty then none
      else if !rest.isEmpty then some (pyStrip ⟨rest⟩)
      else if w.length ≥ 2 then some (pyStrip ⟨w.drop (w.length - 1)⟩)
      else none
    | _ => none

/-- One line of the codes section (lines 153-156): stripped, kept when
non-empty and not starting with `=`. -/
def hcpcsLine (line : List Char) : Option String :=
  match stripChars line with
  | [] => none
  | c :: rest => if c == '=' then none else some ⟨c :: rest⟩

/-- Embeds `re.match(r'\s*\d+\.\s+\[([^\]]+)\]\s+(.+)', line)` followed by
stripping both groups (lines 164-169).  The `\s+` before `[` must reach the
bracket exactly at the end of the maximal whitespace run; `([^\]]+)` is the
maximal non-bracket run; the tail behaves as in `matchIndexedLine`. -/
def matchProductLine (line : List Char) : Option Product :=
  let r1 := line.dropWhile pyIsSpace
  let ds := r1.takeWhile pyIsDigit
  if ds.isEmpty then none
  else
    match r1.drop ds.length with
    | '.' :: r2 =>
      let w := r2.takeWhile pyIsSpace
      if w.isEmpty then none
      else
        match r2.drop w.length with
        | '[' :: r3 =>
          let code := r3.takeWhile (fun c => !(c == ']'))
          if code.isEmpty then none
          else
            match r3.drop code.length with
            | ']' :: r4 =>
              let w2 := r4.takeWhile pyIsSpace
              let rest := r4.drop w2.length
              if w2.isEmpty then none
              else if !rest.isEmpty then
                some { name := pyStrip ⟨rest⟩, hcpcs := some (pyStrip ⟨code⟩) }
              else if w2.length ≥ 2 then
                some { name := pyStrip ⟨w2.drop (w2.length - 1)⟩, hcpcs := some (pyStrip ⟨code⟩) }
              else none
            | _ => none
        | _ => none
    | _ => none

/-- The per-section body of the loop of `parse_inventory_before`
(lines 136-178), producing the dict stored for one file name. -/
def parseSection (content : String) : BeforeData :=
  let cs := content.data
  let stats := searchStats cs
  let categories :=
    match dropAfterLit (("CATEGORIES:").data) cs with
    | none => []
    | some rest =>
      (splitLines (stripChars (pyLazyCapture (("ALL HCPCS CODES").data) rest))).filterMap
        matchIndexedLine
  let hcpcs_codes :=
    match dropAfterLit (("ALL HCPCS CODES (sorted, unique):").data) cs with
    | none => []
    | some rest =>
      (splitLines (stripChars (pyLazyCapture (("COMPLETE PRODUCT LIST").data) rest))).filterMap
        hcpcsLine
  let products :=
    match dropAfterLit (("COMPLETE PRODUCT LIST:").data) cs with
    | none => []
    | some rest =>
      (splitLines (stripChars (pyLazyCapture (("\n\n\n").data) rest))).filterMap
        matchProductLine
  { num_categories := match stats with | some s => s.1 | none => categories.length
    num_products := match stats with | some s => s.2.1 | none => products.length
    num_unique_hcpcs := match stats with | some s => s.2.2 | none => hcpcs_codes.dedup.length
    categories := categories
    hcpcs_codes := hcpcs_codes
    products := products }

/-- One attempt of the section delimiter regex
`={80,}\nFILE: (catalog_\w+\.html)\n={80,}` at the current position: a
maximal run of at least 80 `=`, a newline, the `FILE: ` tag, the captured
file name `catalog_` + word characters + `.html`, a newline, and a second
maximal run of at least 80 `=` (each greedy `={80,}` must reach the
following character exactly at the end of its run).  Returns (captured
name, remainder after the match). -/
def sectionDelimAt (cs : List Char) : Option (String × List Char) :=
  let eq1 := cs.takeWhile (fun c => c == '=')
  if eq1.length < 80 then none
  else
    match dropLit (("\nFILE: catalog_").data) (cs.drop eq1.length) with
    | none => none
    | some r1 =>
      let w := r1.takeWhile pyIsWord
      if w.isEmpty then none
      else
        match dropLit ((".html\n").data) (r1.drop w.length) with
        | none => none
        | some r2 =>
          let eq2 := r2.takeWhile (fun c => c == '=')
          if eq2.length < 80 then none
          else some (⟨(("catalog_").data) ++ w ++ ((".html").data)⟩, r2.drop eq2.length)

/-- Leftmost occurrence of the section delimiter: scans one position at a
time, returning (text before the match, captured name, remainder). -/
def findSection : List Char → Option (List Char × String × List Char)
  | [] => (sectionDelimAt []).map (fun r => ([], r.1, r.2))
  | c :: cs =>
    match sectionDelimAt (c :: cs) with
    | some r => some ([], r.1, r.2)
    | none =>
      match findSection cs with
      | some (pre, n, rest) => some (c :: pre, n, rest)
      | none => none

/-- After a delimiter captured `name`, the section content runs to the next
delimiter (or the end); subsequent sections follow. -/
def sectionsFrom : Nat → String → List Char → List (String × String)
  | 0, name, cs => [(name, ⟨cs⟩)]
  | fuel + 1, name, cs =>
    match findSection cs with
    | none => [(name, ⟨cs⟩)]
    | some (pre, n, rest) => (name, ⟨pre⟩) :: sectionsFrom fuel n rest

/-- The `re.split` of line 129 viewed as the list of (file name, section
content) pairs that the loop of lines 131-178 iterates over (the text
before the first delimiter, `file_sections[0]`, is discarded). -/
def splitSections (cs : List Char) : List (String × String) :=
  match findSection cs with
  | none => []
  | some (_, n, rest) => sectionsFrom cs.length n rest

/-- Embeds `parse_inventory_before` of `validate_inventory.py` (lines 121-180)
applied to the file contents: the dict mapping each section's file name to
its parsed data (modelled as the assignment list; `pyDictGet` reads it with
Python's last-assignment-wins semantics). -/
def parse_inventory_before (content : String) : List (String × BeforeData) :=
  (splitSections content.data).map (fun s => (s.1, parseSection s.2))

/-- The comparison loop of `main` (`validate_inventory.py` lines 399-406):
for each file name in order, look up `before_inventory[html_file]` and
compare.  A missing key raises `KeyError`, modelled as `Except.error` with
the offending name, which aborts the loop (and the whole job, since `main`
does not catch it). -/
def runComparisons (before : List (String × BeforeData)) (after : String → AfterData) :
    List String → Except String (List Comparison)
  | [] => Except.ok []
  | f :: fs =>
    match pyDictGet before f with
    | none => Except.error f
    | some b =>
      match runComparisons before after fs with
      | Except.error e => Except.error e
      | Except.ok rest => Except.ok (compare_inventories b (after f) f :: rest)

/-! Embedding of `simplify_catalogs.py`.  Each `re.sub` of `simplify_html`
(lines 12-84) is a matcher fed to `subAll`; the unguarded
`re.search(...).group(0)` of line 74 becomes the `Except.error` branch of
`simplify_html` (Python raises `AttributeError` on `None.group`). -/

/-- Matcher of the ICD-10 row removal (lines 19-24):
`<div class="code-row">\s*<div class="code-label">ICD-10 Codes</div>` then
lazy `.*?` up to `</div>\s*</div>` (DOTALL).  Replacement is empty. -/
def icdRowMatchAt (cs : List Char) : Option (List Char × List Char) :=
  match dropLit (("<div class=\x22code-row\x22>").data) cs with
  | none => none
  | some r1 =>
    match dropLit (("<div class=\x22code-label\x22>ICD-10 Codes</div>").data)
        (r1.dropWhile pyIsSpace) with
    | none => none
    | some r2 =>
      (lazyUntil
        (fun t =>
          match dropLit (("</div>").data) t with
          | none => none
          | some u => dropLit (("</div>").data) (u.dropWhile pyIsSpace)) r2).map
        (fun rest => ([], rest))

/-- Matcher of the clinical-box removal (lines 27-32):
`<div class="clinical-box">.*?</div>` (DOTALL), replacement empty. -/
def clinicalBoxMatchAt (cs : List Char) : Option (List Char × List Char) :=
  match dropLit (("<div class=\x22clinical-box\x22>").data) cs with
  | none => none
  | some r => (lazyUntil (dropLit (("</div>").data)) r).map (fun rest => ([], rest))

/-- Matcher of the med-necessity removal (lines 35-40):
`<div class="med-necessity">.*?</div>` (DOTALL), replacement empty. -/
def medNecessityMatchAt (cs : List Char) : Option (List Char × List Char) :=
  match dropLit (("<div class=\x22med-necessity\x22>").data) cs with
  | none => none
  | some r => (lazyUntil (dropLit (("</div>").data)) r).map (fun rest => ([], rest))

/-- Matcher of a CSS rule removal (lines 44-57): `sel` then `\s*\{[^}]*\}`
(the greedy `\s*` must reach `\x7b` exactly at the end of the whitespace
run, and `[^}]*` is the maximal run without `\x7d`).  Replacement empty. -/
def cssRuleMatchAt (sel : List Char) (cs : List Char) : Option (List Char × List Char) :=
  match dropLit sel cs with
  | none => none
  | some r1 =>
    match r1.drop (r1.takeWhile pyIsSpace).length with
    | '{' :: r2 =>
      let body := r2.takeWhile (fun c => !(c == '}'))
      match r2.drop body.length with
      | '}' :: r3 => some ([], r3)
      | _ => none
    | _ => none

/-- Tail of the padding rewrite after the greedy `[^}]*`: matches
`padding:\s*\d+px`, returning (the part captured inside group 1, i.e.
`padding:` plus the whitespace, remainder after `px`). -/
def paddingTailAt (cs : List Char) : Option (List Char × List Char) :=
  match dropLit (("padding:").data) cs with
  | none => none
  | some r =>
    let w := r.takeWhile pyIsSpace
    let r2 := r.drop w.length
    let ds := r2.takeWhile pyIsDigit
    if ds.isEmpty then none
    else
      match dropLit (("px").data) (r2.drop ds.length) with
      | some rest => some ((("padding:").data) ++ w, rest)
      | none => none

/-- Matcher of the padding rewrite (lines 60-64):
`(\.product-card\s*\{[^}]*padding:\s*)\d+px` replaced by group 1 + `15px`.
The greedy `[^}]*` picks the longest prefix of the brace-free region after
which `padding:\s*\d+px` still matches (all of which stays brace-free), so
the last viable `padding:` occurrence wins. -/
def paddingMatchAt (cs : List Char) : Option (List Char × List Char) :=
  match dropLit ((".product-card").data) cs with
  | none => none
  | some r1 =>
    let ws := r1.takeWhile pyIsSpace
    match r1.drop ws.length with
    | '{' :: r2 =>
      let body := r2.takeWhile (fun c => !(c == '}'))
      (((List.range (body.length + 1)).filterMap
          (fun i => (paddingTailAt (r2.drop i)).map
            (fun t => (r2.take i ++ t.1, t.2)))).getLast?).map
        (fun g =>
          (((".product-card").data) ++ ws ++ '{' :: g.1 ++ (("15px").data), g.2))
    | _ => none

/-- Tail of the page-break rewrite: group 2, `page-break-inside:\s*[^;]+;`.
When the maximal semicolon-free run after the whitespace is empty the
greedy `\s+` backs off one character so that `[^;]+` captures the final
whitespace character.  Returns the remainder after `;`. -/
def pageBreakTailAt (cs : List Char) : Option (List Char) :=
  match dropLit (("page-break-inside:").data) cs with
  | none => none
  | some r =>
    let w := r.takeWhile pyIsSpace
    let r2 := r.drop w.length
    let body := r2.takeWhile (fun c => !(c == ';'))
    if body.isEmpty then
      if w.isEmpty then none
      else
        match r2 with
        | ';' :: rest => some rest
        | _ => none
    else
      match r2.drop body.length with
      | ';' :: rest => some rest
      | _ => none

/-- Matcher of the page-break rewrite (lines 67-71):
`(\.product-card\s*\{[^}]*)(page-break-inside:\s*[^;]+;)` replaced by
group 1 + `page-break-inside: avoid;`; the greedy `[^}]*` again picks the
longest viable prefix of the brace-free region. -/
def pageBreakMatchAt (cs : List Char) : Option (List Char × List Char) :=
  match dropLit ((".product-card").data) cs with
  | none => none
  | some r1 =>
    let ws := r1.takeWhile pyIsSpace
    match r1.drop ws.length with
    | '{' :: r2 =>
      let body := r2.takeWhile (fun c => !(c == '}'))
      (((List.range (body.length + 1)).filterMap
          (fun i => (pageBreakTailAt (r2.drop i)).map
            (fun rest => (r2.take i, rest)))).getLast?).map
        (fun g =>
          (((".product-card").data) ++ ws ++ '{' :: g.1
            ++ (("page-break-inside: avoid;").data), g.2))
    | _ => none

/-- Matcher of the insertion rewrite (lines 75-79): `(\.product-card\s*\{)`
replaced by group 1 followed by a newline and the page-break declaration. -/
def productCardOpenMatchAt (cs : List Char) : Option (List Char × List Char) :=
  match dropLit ((".product-card").data) cs with
  | none => none
  | some r1 =>
    let ws := r1.takeWhile pyIsSpace
    match r1.drop ws.length with
    | '{' :: r2 =>
      some (((".product-card").data) ++ ws ++ '{'
        :: (("\n            page-break-inside: avoid;").data), r2)
    | _ => none

/-- One attempt of the guard search of line 74,
`\.product-card\s*\{[^}]*\}` (DOTALL): returns (the whole match, group 0,
and the remainder). -/
def productCardRuleAt (cs : List Char) : Option (List Char × List Char) :=
  match dropLit ((".product-card").data) cs with
  | none => none
  | some r1 =>
    let ws := r1.takeWhile pyIsSpace
    match r1.drop ws.length with
    | '{' :: r2 =>
      let body := r2.takeWhile (fun c => !(c == '}'))
      match r2.drop body.length with
      | '}' :: rest =>
        some (((".product-card").data) ++ ws ++ '{' :: body ++ ['}'], rest)
      | _ => none
    | _ => none

/-- Embeds the `re.search(r'\.product-card\s*\x7b[^}]*\x7d', content, re.DOTALL)` of
line 74: group 0 of the leftmost match, when one exists. -/
def searchProductCardRule (cs : List Char) : Option (List Char) :=
  searchFirst productCardRuleAt cs

/-- Matcher of the whitespace cleanup (line 82): `\n\s*\n\s*\n+` replaced
by two newlines.  The pattern matches at a newline whose maximal
whitespace run contains at least three newlines; greedy backtracking makes
the match extend exactly through the last newline of that run. -/
def blankLinesMatchAt (cs : List Char) : Option (List Char × List Char) :=
  match cs with
  | '\n' :: _ =>
    let run := cs.takeWhile pyIsSpace
    if (run.filter (fun c => c == '\n')).length ≥ 3 then
      let consumed := (run.reverse.dropWhile (fun c => !(c == '\n'))).length
      some ((("\n\n").data), cs.drop consumed)
    else none
  | _ => none

/-- The content of `simplify_html` just before the guard of line 74: the
five removals and the two product-card rewrites applied in order. -/
def beforeRuleCheck (content : String) : List Char :=
  let c1 := subAll icdRowMatchAt content.data.length content.data
  let c2 := subAll clinicalBoxMatchAt c1.length c1
  let c3 := subAll medNecessityMatchAt c2.length c2
  let c4 := subAll (cssRuleMatchAt ((".clinical-box").data)) c3.length c3
  let c5 := subAll (cssRuleMatchAt ((".med-necessity").data)) c4.length c4
  let c6 := subAll paddingMatchAt c5.length c5
  subAll pageBreakMatchAt c6.length c6

/-- Embeds `simplify_html` of `simplify_catalogs.py` (lines 12-84).  The value is
`Except.error` when line 74's `re.search` finds no product-card rule and
`.group(0)` raises `AttributeError`; otherwise the simplified content. -/
def simplify_html (content : String) : Except String String :=
  let c7 := beforeRuleCheck content
  match searchProductCardRule c7 with
  | none => Except.error ("AttributeError")
  | some g =>
    let c8 :=
      if containsLit (("page-break-inside").data) g then c7
      else subAll productCardOpenMatchAt c7.length c7
    Except.ok ⟨subAll blankLinesMatchAt c8.length c8⟩

/-- Embeds `process_file` of `simplify_catalogs.py` (lines 87-116) applied to the
contents of the file it reads: the surrounding `try` catches any exception
from `simplify_html` and returns `False`; on success it returns `True`
(the file write and progress printing are out of scope). -/
def process_file (content : String) : Bool :=
  match simplify_html content with
  | Except.ok _ => true
  | Except.error _ => false

/-! Concrete inputs used by the claim counterexamples and witnesses. -/

/-- A trivial after-side snapshot for exercising the comparison loop. -/
def stubAfter : AfterData :=
  { categories := [], products := [], num_categories := 0, num_products := 0 }

/-- Before-side data whose declared code list and product codes disagree. -/
def bC1 : BeforeData :=
  { num_categories := 0, num_products := 1, num_unique_hcpcs := 1,
    categories := [], hcpcs_codes := [("X1")],
    products := [⟨("Pump"), some ("Y2")⟩] }

/-- An empty after-side snapshot. -/
def aC1 : AfterData :=
  { categories := [], products := [], num_categories := 0, num_products := 0 }

/-- Before-side data with a declared code attached to no product. -/
def sC2x : BeforeData :=
  { num_categories := 0, num_products := 0, num_unique_hcpcs := 1,
    categories := [], hcpcs_codes := [("E0100")], products := [] }

/-- Self-consistent before-side data: code list and product codes agree. -/
def sC2w : BeforeData :=
  { num_categories := 1, num_products := 1, num_unique_hcpcs := 1,
    categories := [("Mobility")], hcpcs_codes := [("E0100")],
    products := [⟨("Cane"), some ("E0100")⟩] }

/-- Before-side data with an untrimmed product name and a declared code list
matching the after side. -/
def bC7x : BeforeData :=
  { num_categories := 1, num_products := 1, num_unique_hcpcs := 1,
    categories := [("Mobility")], hcpcs_codes := [("E9999")],
    products := [⟨(" Cane"), some ("E0130")⟩] }

/-- After-side data whose single product matches `bC7x`'s product up to
trimming and case, with a different code. -/
def aC7x : AfterData :=
  { categories := [("Mobility")], products := [⟨("CANE"), some ("E9999")⟩],
    num_categories := 1, num_products := 1 }

/-- Before-side data with a product matched case-insensitively on the after
side. -/
def bC7w : BeforeData :=
  { num_categories := 1, num_products := 1, num_unique_hcpcs := 1,
    categories := [("Mobility")], hcpcs_codes := [("E0100")],
    products := [⟨("Cane"), some ("E0100")⟩] }

/-- After-side data matching `bC7w` up to case. -/
def aC7w : AfterData :=
  { categories := [("Mobility")], products := [⟨("CANE"), some ("E0100")⟩],
    num_categories := 1, num_products := 1 }

/-- A comparison result with fifteen missing and fifteen extra products. -/
def c8ex : Comparison :=
  { file := ("catalog_specialized.html")
    categories_match := true
    products_match := false
    missing_categories := []
    missing_hcpcs := []
    missing_products :=
      [("p01"), ("p02"), ("p03"), ("p04"), ("p05"), ("p06"), ("p07"), ("p08"),
       ("p09"), ("p10"), ("p11"), ("p12"), ("p13"), ("p14"), ("p15")]
    extra_categories := []
    extra_hcpcs := []
    extra_products :=
      [("q01"), ("q02"), ("q03"), ("q04"), ("q05"), ("q06"), ("q07"), ("q08"),
       ("q09"), ("q10"), ("q11"), ("q12"), ("q13"), ("q14"), ("q15")]
    before_num_categories := 1
    after_num_categories := 1
    before_num_products := 16
    after_num_products := 1
    all_match := false }

/-- A before-snapshot section with a statistics block declaring counts that
disagree with its enumerated lists. -/
def secC6a : String :=
  ("\n\nSTATISTICS:\n  Total categories: 2\n  Total products: 50\n  Unique HCPCS codes: 3\n\nCATEGORIES:\n  1. Mobility\n  2. Diabetic\n\nALL HCPCS CODES (sorted, unique):\nE0100\nE0130\n====\n\nCOMPLETE PRODUCT LIST:\n  1. [E0100] Cane\n")

/-- A before-snapshot section without a statistics block. -/
def secC6b : String :=
  ("\nCATEGORIES:\n  1. Wound Care\n\nALL HCPCS CODES (sorted, unique):\nA6021\nA6021\n\nCOMPLETE PRODUCT LIST:\n  1. [A6021] Pad\n  2. [A6022] Gauze\n\n\n\ntrailing junk")

/-- An input for `simplify_html` that contains no product-card CSS rule,
but in which the clinical-box removal manufactures one. -/
def cexC10 : String :=
  (".product-card <div class=\x22clinical-box\x22>x</div> \x7b \x7d")

/-! Order lemmas for the embedded Python string comparison, needed to reason
about `sorted(...)` output. -/

theorem ltChars_asymm : ∀ as bs, ltChars as bs = true → ltChars bs as = false := by
  intro as
  induction as with
  | nil =>
    intro bs h
    cases bs with
    | nil => exact absurd h (by simp [ltChars])
    | cons b bs => simp [ltChars]
  | cons a as ih =>
    intro bs h
    cases bs with
    | nil => exact absurd h (by simp [ltChars])
    | cons b bs =>
      simp only [ltChars] at h ⊢
      by_cases hab : a.toNat < b.toNat
      · rw [if_neg (Nat.lt_asymm hab), if_pos hab]
      · rw [if_neg hab] at h
        by_cases hba : b.toNat < a.toNat
        · rw [if_pos hba] at h
          exact absurd h (by simp)
        · rw [if_neg hba] at h
          rw [if_neg hba, if_neg hab]
          exact ih bs h

theorem ltChars_false_trans :
    ∀ cs bs as, ltChars bs as = false → ltChars cs bs = false → ltChars cs as = false := by
  intro cs
  induction cs with
  | nil =>
    intro bs as h1 h2
    cases as with
    | nil => rfl
    | cons a as =>
      cases bs with
      | nil => exact absurd h1 (by simp [ltChars])
      | cons b bs => exact absurd h2 (by simp [ltChars])
  | cons c cs ih =>
    intro bs as h1 h2
    cases as with
    | nil => rfl
    | cons a as =>
      cases bs with
      | nil => exact absurd h1 (by simp [ltChars])
      | cons b bs =>
        simp only [ltChars] at h1 h2 ⊢
        by_cases hba : b.toNat < a.toNat
        · rw [if_pos hba] at h1
          exact absurd h1 (by simp)
        · rw [if_neg hba] at h1
          by_cases hcb : c.toNat < b.toNat
          · rw [if_pos hcb] at h2
            exact absurd h2 (by simp)
          · rw [if_neg hcb] at h2
            by_cases hca : c.toNat < a.toNat
            · exact absurd hca (by omega)
            · rw [if_neg hca]
              by_cases hac : a.toNat < c.toNat
              · rw [if_pos hac]
              · rw [if_neg hac]
                have hab : ¬a.toNat < b.toNat := by omega
                have hbc : ¬b.toNat < c.toNat := by omega
                rw [if_neg hab] at h1
                rw [if_neg hbc] at h2
                exact ih bs as h1 h2

instance : IsTotal String pyLe :=
  ⟨fun a b => by
    cases hb : ltChars a.data b.data with
    | false => exact Or.inr hb
    | true => exact Or.inl (ltChars_asymm _ _ hb)⟩

instance : IsTrans String pyLe :=
  ⟨fun _ b _ h1 h2 => ltChars_false_trans _ b.data _ h1 h2⟩

/-! Lemmas about the embedded `sorted(set(...) - set(...))`. -/

theorem mem_sortedSetDiff {xs ys : List String} {c : String} :
    c ∈ sortedSetDiff xs ys ↔ c ∈ xs ∧ c ∉ ys := by
  unfold sortedSetDiff
  rw [(List.perm_insertionSort pyLe _).mem_iff, List.mem_dedup, List.mem_filter]
  simp [List.contains]

theorem sorted_sortedSetDiff (xs ys : List String) :
    List.Sorted pyLe (sortedSetDiff xs ys) :=
  List.sorted_insertionSort pyLe _

theorem sortedSetDiff_eq_nil {xs ys : List String} (h : ∀ c ∈ xs, c ∈ ys) :
    sortedSetDiff xs ys = [] := by
  unfold sortedSetDiff
  have hf : xs.filter (fun c => !(ys.contains c)) = [] := by
    rw [List.filter_eq_nil_iff]
    intro a ha
    simp [List.contains, h a ha]
  rw [hf]
  rfl

/-! Field equations of `compare_inventories`, shared by several claims. -/

theorem compare_missing_hcpcs (b : BeforeData) (a : AfterData) (f : String) :
    (compare_inventories b a f).missing_hcpcs = sortedSetDiff b.hcpcs_codes (afterCodes a) := rfl

theorem compare_extra_hcpcs (b : BeforeData) (a : AfterData) (f : String) :
    (compare_inventories b a f).extra_hcpcs = sortedSetDiff (afterCodes a) b.hcpcs_codes := rfl

theorem compare_missing_products (b : BeforeData) (a : AfterData) (f : String) :
    (compare_inventories b a f).missing_products =
      (sortedSetDiff (upperKeys b.products) (upperKeys a.products)).filterMap
        (fun u => (dictLast b.products u).map Product.name) := rfl

theorem compare_extra_products (b : BeforeData) (a : AfterData) (f : String) :
    (compare_inventories b a f).extra_products =
      (sortedSetDiff (upperKeys a.products) (upperKeys b.products)).filterMap
        (fun u => (dictLast a.products u).map Product.name) := rfl

theorem compare_all_match (b : BeforeData) (a : AfterData) (f : String) :
    (compare_inventories b a f).all_match =
      ((b.num_categories == a.num_categories) && (b.num_products == a.num_products)
        && ((compare_inventories b a f).missing_hcpcs.length == 0)
        && ((compare_inventories b a f).extra_hcpcs.length == 0)
        && ((compare_inventories b a f).missing_products.length == 0)
        && ((compare_inventories b a f).extra_products.length == 0)) := rfl

/-! Miscellaneous list lemmas. -/

theorem mem_of_getLast_eq_some {α : Type} {l : List α} {a : α}
    (h : l.getLast? = some a) : a ∈ l := by
  cases l with
  | nil => exact absurd h (by simp)
  | cons x xs =>
    rw [List.getLast?_eq_getLast _ (by simp)] at h
    exact (Option.some.inj h) ▸ List.getLast_mem _

theorem head?_dropWhile_not {α : Type} {p : α → Bool} {l : List α} {a : α}
    (h : (l.dropWhile p).head? = some a) : p a = false := by
  induction l with
  | nil => exact absurd h (by simp)
  | cons x xs ih =>
    rw [List.dropWhile_cons] at h
    split at h
    · exact ih h
    · rename_i hx
      rw [List.head?_cons] at h
      cases Option.some.inj h
      exact Bool.eq_false_iff.mpr hx

theorem getLast?_dropWhile {α : Type} {p : α → Bool} {l : List α}
    (h : l.dropWhile p ≠ []) : (l.dropWhile p).getLast? = l.getLast? := by
  induction l with
  | nil => exact absurd rfl h
  | cons x xs ih =>
    rw [List.dropWhile_cons]
    split
    · rename_i hx
      have hx2 : xs.dropWhile p ≠ [] := by
        rwa [List.dropWhile_cons, if_pos hx] at h
      rw [ih hx2]
      cases xs with
      | nil => exact absurd (by simp) hx2
      | cons y ys => rw [List.getLast?_cons_cons]
    · rfl

/-- The head of a stripped string is never whitespace. -/
theorem stripChars_head {cs : List Char} {a : Char}
    (h : (stripChars cs).head? = some a) : pyIsSpace a = false := by
  unfold stripChars at h
  rw [List.head?_reverse] at h
  have hne : (cs.dropWhile pyIsSpace).reverse.dropWhile pyIsSpace ≠ [] := by
    intro hnil
    rw [hnil] at h
    exact absurd h (by simp)
  rw [getLast?_dropWhile hne, List.getLast?_reverse] at h
  exact head?_dropWhile_not h

/-- The last character of a stripped string is never whitespace. -/
theorem stripChars_getLast {cs : List Char} {a : Char}
    (h : (stripChars cs).getLast? = some a) : pyIsSpace a = false := by
  unfold stripChars at h
  rw [List.getLast?_reverse] at h
  exact head?_dropWhile_not h

/-! Claim theorems. -/

/-- Claim C1, counterexample: the claim says the before-side code set is
built from the codes attached to `before.products`, but `compare_inventories`
builds it from the separately declared `hcpcs_codes` list (line 207).  With
a before snapshot declaring code `X1` while its only product carries code
`Y2`, the computed `missing_hcpcs` is `[X1]`, not the `[Y2]` the claim
requires. -/
theorem C1_counterexample :
    (compare_inventories bC1 aC1 ("f")).missing_hcpcs = [("X1")] ∧
    specMissingCodes bC1 aC1 = [("Y2")] ∧
    (compare_inventories bC1 aC1 ("f")).missing_hcpcs ≠ specMissingCodes bC1 aC1 := by
  decide

/-- Claim C1, amended: the Comparator builds the before-side code set from
the snapshot's separately declared `hcpcs_codes` list (not from its
products) and the after-side code set from the codes attached to after's
products; `missing_hcpcs` is the before-minus-after set difference and
`extra_hcpcs` the after-minus-before difference, each returned as a sorted
sequence. -/
theorem C1_amended (b : BeforeData) (a : AfterData) (f : String) :
    (compare_inventories b a f).missing_hcpcs = sortedSetDiff b.hcpcs_codes (afterCodes a) ∧
    (compare_inventories b a f).extra_hcpcs = sortedSetDiff (afterCodes a) b.hcpcs_codes ∧
    List.Sorted pyLe (compare_inventories b a f).missing_hcpcs ∧
    List.Sorted pyLe (compare_inventories b a f).extra_hcpcs :=
  ⟨rfl, rfl, sorted_sortedSetDiff _ _, sorted_sortedSetDiff _ _⟩

/-- Claim C2, counterexample: the claim says comparing any snapshot with
itself yields `all_match = true` and empty diff sets, but the before-side
code set comes from the declared `hcpcs_codes` list while the after-side
set comes from the product codes, so a self-comparison of data whose
declared code appears on no product reports that code missing and fails. -/
theorem C2_counterexample :
    (compare_inventories sC2x sC2x.asAfter ("f")).all_match = false ∧
    (compare_inventories sC2x sC2x.asAfter ("f")).missing_hcpcs = [("E0100")] := by
  decide

/-- Claim C2, amended: comparing a snapshot with itself yields
`all_match = true` and all four diff lists empty whenever the snapshot's
declared code list and the set of codes attached to its products coincide
(as holds for self-consistent snapshots); the count matches and the product
diffs hold unconditionally, but the code diffs need the consistency
hypothesis. -/
theorem C2_self_compare (S : BeforeData) (f : String)
    (h1 : ∀ c ∈ S.hcpcs_codes, c ∈ S.products.filterMap Product.hcpcs)
    (h2 : ∀ c ∈ S.products.filterMap Product.hcpcs, c ∈ S.hcpcs_codes) :
    (compare_inventories S S.asAfter f).all_match = true ∧
    (compare_inventories S S.asAfter f).missing_hcpcs = [] ∧
    (compare_inventories S S.asAfter f).extra_hcpcs = [] ∧
    (compare_inventories S S.asAfter f).missing_products = [] ∧
    (compare_inventories S S.asAfter f).extra_products = [] := by
  have hmh : (compare_inventories S S.asAfter f).missing_hcpcs = [] := by
    rw [compare_missing_hcpcs]
    exact sortedSetDiff_eq_nil h1
  have heh : (compare_inventories S S.asAfter f).extra_hcpcs = [] := by
    rw [compare_extra_hcpcs]
    exact sortedSetDiff_eq_nil h2
  have hmpn : sortedSetDiff (upperKeys S.products) (upperKeys S.asAfter.products) = [] :=
    sortedSetDiff_eq_nil (fun c hc => hc)
  have hmp : (compare_inventories S S.asAfter f).missing_products = [] := by
    rw [compare_missing_products, hmpn]
    rfl
  have hepn : sortedSetDiff (upperKeys S.asAfter.products) (upperKeys S.products) = [] :=
    sortedSetDiff_eq_nil (fun c hc => hc)
  have hep : (compare_inventories S S.asAfter f).extra_products = [] := by
    rw [compare_extra_products, hepn]
    rfl
  refine ⟨?_, hmh, heh, hmp, hep⟩
  rw [compare_all_match, hmh, heh, hmp, hep]
  simp [BeforeData.asAfter]

/-- Claim C2, witness: a concrete self-consistent snapshot satisfies the
consistency hypotheses and self-compares to a full match. -/
theorem C2_witness :
    (∀ c ∈ sC2w.hcpcs_codes, c ∈ sC2w.products.filterMap Product.hcpcs) ∧
    (∀ c ∈ sC2w.products.filterMap Product.hcpcs, c ∈ sC2w.hcpcs_codes) ∧
    (compare_inventories sC2w sC2w.asAfter ("f")).all_match = true :=
  ⟨by decide, by decide, (C2_self_compare sC2w ("f") (by decide) (by decide)).1⟩

/-- Claim C8 (confirmed): when `missing_products` (resp. `extra_products`)
has more than ten entries, the detailed block of `generate_report` renders
the heading, exactly the first ten entries, one line stating how many more
remain, and the closing blank line. -/
theorem C8_report_caps (c : Comparison) :
    (c.missing_products.length > 10 →
      missingProductsBlock c =
        (("  ✗ MISSING PRODUCTS (") ++ toString c.missing_products.length ++ ("):"))
          :: ((c.missing_products.take 10).map (fun p => ("    - ") ++ p)
            ++ [("    ... and ") ++ toString (c.missing_products.length - 10) ++ (" more"), ("")]) ∧
      (c.missing_products.take 10).length = 10) ∧
    (c.extra_products.length > 10 →
      extraProductsBlock c =
        (("  ! EXTRA PRODUCTS (") ++ toString c.extra_products.length ++ ("):"))
          :: ((c.extra_products.take 10).map (fun p => ("    - ") ++ p)
            ++ [("    ... and ") ++ toString (c.extra_products.length - 10) ++ (" more"), ("")]) ∧
      (c.extra_products.take 10).length = 10) := by
  constructor
  · intro h
    have hne : c.missing_products.isEmpty = false := by
      rw [List.isEmpty_eq_false]
      intro hnil
      rw [hnil] at h
      exact absurd h (by simp)
    refine ⟨?_, ?_⟩
    · simp [missingProductsBlock, hne, h]
    · rw [List.length_take]
      omega
  · intro h
    have hne : c.extra_products.isEmpty = false := by
      rw [List.isEmpty_eq_false]
      intro hnil
      rw [hnil] at h
      exact absurd h (by simp)
    refine ⟨?_, ?_⟩
    · simp [extraProductsBlock, hne, h]
    · rw [List.length_take]
      omega

/-- Claim C8, witness: with exactly fifteen missing products the block is
the heading, the first ten entries, the line `... and 5 more`, and the
blank line. -/
theorem C8_witness :
    c8ex.missing_products.length > 10 ∧
    missingProductsBlock c8ex =
      [("  ✗ MISSING PRODUCTS (15):"),
       ("    - p01"), ("    - p02"), ("    - p03"), ("    - p04"), ("    - p05"),
       ("    - p06"), ("    - p07"), ("    - p08"), ("    - p09"), ("    - p10"),
       ("    ... and 5 more"), ("")] :=
  ⟨by decide, (((C8_report_caps c8ex).1 (by decide)).1).trans (by decide)⟩

/-- Claim C9 (confirmed): `compare_inventories` initialises
`missing_categories` and `extra_categories` to empty lists and no code path
ever assigns them, so every comparison result carries empty category diff
lists; only the category counts can signal a category discrepancy. -/
theorem C9_no_category_diffs (b : BeforeData) (a : AfterData) (f : String) :
    (compare_inventories b a f).missing_categories = [] ∧
    (compare_inventories b a f).extra_categories = [] :=
  ⟨rfl, rfl⟩

/-- Claim C3, counterexample: the claim says a catalog whose section is
missing from the before snapshot yields an explicit per-catalog error
result and does not abort the job; in fact the lookup
`before_inventory[html_file]` in `main` raises an uncaught `KeyError`,
aborting the whole comparison loop with no per-catalog result list at
all. -/
theorem C3_counterexample :
    runComparisons (parse_inventory_before ("no catalog sections in this text"))
      (fun _ => stubAfter) [("catalog_mobility_aids.html")]
      = Except.error ("catalog_mobility_aids.html") := by
  decide

/-- Claim C3, amended: a catalog named in the file list whose matching
section is absent from the before-snapshot file is absent from the reader's
result mapping, and the downstream comparison loop then raises a `KeyError`
that aborts the whole job — it is not a silent pass, but it is also not a
per-catalog error result, and the remaining catalogs are not processed. -/
theorem C3_amended (content name : String) (files : List String) (after : String → AfterData)
    (habsent : name ∉ (splitSections content.data).map Prod.fst)
    (hmem : name ∈ files) :
    pyDictGet (parse_inventory_before content) name = none ∧
    ∃ f, runComparisons (parse_inventory_before content) after files = Except.error f := by
  have hkey : pyDictGet (parse_inventory_before content) name = none := by
    have hfil : (parse_inventory_before content).filter (fun e => e.1 == name) = [] := by
      rw [List.filter_eq_nil_iff]
      intro e he hbeq
      obtain ⟨s, hs, rfl⟩ := List.mem_map.mp he
      exact habsent (List.mem_map.mpr ⟨s, hs, by simpa using hbeq⟩)
    unfold pyDictGet
    rw [hfil]
    rfl
  refine ⟨hkey, ?_⟩
  induction files with
  | nil => exact absurd hmem (List.not_mem_nil _)
  | cons f fs ih =>
    rcases List.mem_cons.mp hmem with rfl | hmem2
    · exact ⟨name, by simp [runComparisons, hkey]⟩
    · cases hl : pyDictGet (parse_inventory_before content) f with
      | none => exact ⟨f, by simp [runComparisons, hl]⟩
      | some b =>
        obtain ⟨g, hg⟩ := ih hmem2
        exact ⟨g, by simp [runComparisons, hl, hg]⟩

/-- Claim C3, witness: a concrete before file with no sections leaves the
catalog out of the mapping and the comparison loop aborts with an error. -/
theorem C3_witness :
    (("catalog_gamma.html") ∉ (splitSections (("plain text").data)).map Prod.fst) ∧
    (("catalog_gamma.html") ∈ [("catalog_gamma.html")]) ∧
    pyDictGet (parse_inventory_before ("plain text")) ("catalog_gamma.html") = none ∧
    (∃ f, runComparisons (parse_inventory_before ("plain text")) (fun _ => stubAfter)
      [("catalog_gamma.html")] = Except.error f) := by
  have h := C3_amended ("plain text") ("catalog_gamma.html") [("catalog_gamma.html")]
    (fun _ => stubAfter) (by decide) (by decide)
  exact ⟨by decide, by decide, h.1, h.2⟩

/-- Claim C4, counterexample: the claim says a category heading whose
content is only whitespace is discarded, so that every element of
`categories` is non-empty; in fact the regex of line 90 matches such a
heading (the group captures the final whitespace character) and line 92
strips it to the empty string, which is appended. -/
theorem C4_counterexample :
    (parse_html_file ("<div class=\x22category-header\x22> </div>")).categories = [("")] := by
  decide

/-- Claim C4, amended: every element of the extracted `categories` is a
trimmed string — it neither starts nor ends with whitespace — but it may be
empty: a heading whose content is only whitespace is not discarded, it is
appended as the empty string (only a heading with no content at all fails
the regex and is dropped). -/
theorem C4_amended (content : String) (c : String)
    (hc : c ∈ (parse_html_file content).categories) :
    (∀ a, c.data.head? = some a → pyIsSpace a = false) ∧
    (∀ a, c.data.getLast? = some a → pyIsSpace a = false) := by
  simp only [parse_html_file] at hc
  obtain ⟨g, hg, rfl⟩ := List.mem_map.mp hc
  exact ⟨fun a ha => stripChars_head ha, fun a ha => stripChars_getLast ha⟩

/-- Claim C4, witness: a concretely extracted category is trimmed. -/
theorem C4_witness :
    (("Mobility Aids") ∈
      (parse_html_file ("<div class=\x22category-header\x22> Mobility Aids </div>")).categories) ∧
    (∀ a, ("Mobility Aids").data.head? = some a → pyIsSpace a = false) :=
  ⟨by decide,
    (C4_amended ("<div class=\x22category-header\x22> Mobility Aids </div>") ("Mobility Aids")
      (by decide)).1⟩

/-- Claim C5, counterexample: the claim says no extracted product ever
carries an empty string as its code; in fact a code marker whose enclosed
content is only whitespace matches `([^<]+)` and line 111 strips the group
to the empty string, stored as the product's code. -/
theorem C5_counterexample :
    (parse_html_file
      ("<div class=\x22product-card\x22><div class=\x22product-name\x22>Chair</div><span class=\x22hcpcs-code\x22> </span>")).products
      = [{ name := ("Chair"), hcpcs := some ("") }] := by
  decide

/-- Claim C5, amended: a product block whose card contains no code-marker
match has its code absent (no `hcpcs` key at all); when the code marker
matches, the stored code is the stripped capture, which is the empty
string when the enclosed content was only whitespace. -/
theorem C5_amended (card : List Char) (p : Product) (h : parseCard card = some p) :
    (p.hcpcs = none ↔ searchFirst hcpcsMatchAt card = none) ∧
    (∀ g, searchFirst hcpcsMatchAt card = some g → p.hcpcs = some (pyStrip ⟨g⟩)) := by
  unfold parseCard at h
  cases hn : searchFirst nameMatchAt card with
  | none =>
    rw [hn] at h
    exact absurd h (by simp)
  | some g =>
    rw [hn] at h
    cases Option.some.inj h
    constructor
    · cases hh : searchFirst hcpcsMatchAt card <;> simp [hh]
    · intro g2 hg2
      simp [hg2]

/-- Claim C5, witness: a concrete card with no code marker yields a product
whose code is absent. -/
theorem C5_witness :
    parseCard (("<div class=\x22product-name\x22>Chair</div>").data) = some ⟨("Chair"), none⟩ ∧
    (⟨("Chair"), none⟩ : Product).hcpcs = none :=
  ⟨by decide,
    (C5_amended (("<div class=\x22product-name\x22>Chair</div>").data) ⟨("Chair"), none⟩
      (by decide)).1.mpr (by decide)⟩

/-- Claim C6 (confirmed): when the statistics regex matches a section, the
reported `num_categories`, `num_products` and `num_unique_hcpcs` are
exactly the declared integers, whatever the enumerated lists contain; when
it does not match, they are exactly the length of the parsed categories
list, the length of the parsed products list, and the number of distinct
parsed codes. -/
theorem C6_declared_stats_precedence (content : String) :
    (∀ nc np nh, searchStats content.data = some (nc, np, nh) →
      (parseSection content).num_categories = nc ∧
      (parseSection content).num_products = np ∧
      (parseSection content).num_unique_hcpcs = nh) ∧
    (searchStats content.data = none →
      (parseSection content).num_categories = (parseSection content).categories.length ∧
      (parseSection content).num_products = (parseSection content).products.length ∧
      (parseSection content).num_unique_hcpcs =
        (parseSection content).hcpcs_codes.dedup.length) := by
  constructor
  · intro nc np nh h
    simp [parseSection, h]
  · intro h
    simp [parseSection, h]

/-- Claim C6, witness: a concrete section declaring fifty products while
listing one reports fifty; a concrete section with no statistics block
reports the exact parsed-list counts. -/
theorem C6_witness :
    searchStats secC6a.data = some (2, 50, 3) ∧
    (parseSection secC6a).products.length = 1 ∧
    (parseSection secC6a).num_products = 50 ∧
    searchStats secC6b.data = none ∧
    (parseSection secC6b).num_products = (parseSection secC6b).products.length :=
  ⟨by decide, by decide,
    ((C6_declared_stats_precedence secC6a).1 2 50 3 (by decide)).2.1,
    by decide,
    ((C6_declared_stats_precedence secC6b).2 (by decide)).2.1⟩

/-- Claim C7, counterexample: the claim says products whose trimmed names
match case-insensitively contribute no missing/extra product entries, and
that a matched pair with differing codes still surfaces as a code mismatch.
`compare_inventories` compares `name.upper()` without trimming, so the pair
` Cane` / `CANE` (equal after trim and case) produces one missing and one
extra product; and since the code sets compare the declared `hcpcs_codes`
list against the after-side product codes, the pair's differing codes
(`E0130` vs `E9999`) produce no code mismatch at all here. -/
theorem C7_counterexample :
    pyUpper (pyStrip (" Cane")) = pyUpper (pyStrip ("CANE")) ∧
    (some ("E0130") : Option String) ≠ some ("E9999") ∧
    (compare_inventories bC7x aC7x ("f")).missing_products = [(" Cane")] ∧
    (compare_inventories bC7x aC7x ("f")).extra_products = [("CANE")] ∧
    (compare_inventories bC7x aC7x ("f")).missing_hcpcs = [] ∧
    (compare_inventories bC7x aC7x ("f")).extra_hcpcs = [] := by
  decide

/-- Claim C7, amended: product identity in `compare_inventories` is
case-insensitive equality of the stored names, with no trimming: a
before-product and an after-product whose uppercased names are equal
contribute no entry to `missing_products` or `extra_products`.  Codes are
not compared per matched pair: a code `c` appears in `missing_hcpcs` iff it
is in the before snapshot's declared code list and on no after-side
product, and in `extra_hcpcs` iff it is on an after-side product and not in
the declared list. -/
theorem C7_amended (b : BeforeData) (a : AfterData) (f : String) (p q : Product)
    (hp : p ∈ b.products) (hq : q ∈ a.products)
    (hn : pyUpper p.name = pyUpper q.name) :
    p.name ∉ (compare_inventories b a f).missing_products ∧
    q.name ∉ (compare_inventories b a f).extra_products ∧
    (∀ c, c ∈ (compare_inventories b a f).missing_hcpcs ↔
      c ∈ b.hcpcs_codes ∧ c ∉ afterCodes a) ∧
    (∀ c, c ∈ (compare_inventories b a f).extra_hcpcs ↔
      c ∈ afterCodes a ∧ c ∉ b.hcpcs_codes) := by
  refine ⟨?_, ?_, ?_, ?_⟩
  · rw [compare_missing_products]
    intro hmem
    obtain ⟨u, hu, hval⟩ := List.mem_filterMap.mp hmem
    obtain ⟨p2, hp2, hp2name⟩ := Option.map_eq_some'.mp hval
    have hp2mem := mem_of_getLast_eq_some hp2
    have hp2key : (pyUpper p2.name == u) = true := (List.mem_filter.mp hp2mem).2
    have hukey : u = pyUpper p.name := by
      have hpu : pyUpper p2.name = u := by simpa using hp2key
      rw [← hpu, hp2name]
    have hafter : u ∈ upperKeys a.products := by
      rw [hukey, hn]
      exact List.mem_map_of_mem _ hq
    exact (mem_sortedSetDiff.mp hu).2 hafter
  · rw [compare_extra_products]
    intro hmem
    obtain ⟨u, hu, hval⟩ := List.mem_filterMap.mp hmem
    obtain ⟨q2, hq2, hq2name⟩ := Option.map_eq_some'.mp hval
    have hq2mem := mem_of_getLast_eq_some hq2
    have hq2key : (pyUpper q2.name == u) = true := (List.mem_filter.mp hq2mem).2
    have hukey : u = pyUpper q.name := by
      have hqu : pyUpper q2.name = u := by simpa using hq2key
      rw [← hqu, hq2name]
    have hbefore : u ∈ upperKeys b.products := by
      rw [hukey, ← hn]
      exact List.mem_map_of_mem _ hp
    exact (mem_sortedSetDiff.mp hu).2 hbefore
  · intro c
    rw [compare_missing_hcpcs]
    exact mem_sortedSetDiff
  · intro c
    rw [compare_extra_hcpcs]
    exact mem_sortedSetDiff

/-- Claim C7, witness: a concrete case-insensitively matched pair produces
no missing-product entry. -/
theorem C7_witness :
    ((⟨("Cane"), some ("E0100")⟩ : Product) ∈ bC7w.products) ∧
    ((⟨("CANE"), some ("E0100")⟩ : Product) ∈ aC7w.products) ∧
    pyUpper ("Cane") = pyUpper ("CANE") ∧
    (("Cane") ∉ (compare_inventories bC7w aC7w ("f")).missing_products) :=
  ⟨by decide, by decide, by decide,
    (C7_amended bC7w aC7w ("f") ⟨("Cane"), some ("E0100")⟩ ⟨("CANE"), some ("E0100")⟩
      (by decide) (by decide) (by decide)).1⟩

/-- Claim C10, counterexample: the claim says `simplify_html` raises for
any input text that contains no product-card CSS rule; this input contains
none, yet the clinical-box removal pass manufactures one, line 74's search
succeeds, and `process_file` returns `True` with no exception. -/
theorem C10_counterexample :
    searchProductCardRule cexC10.data = none ∧ process_file cexC10 = true := by
  decide

/-- Claim C10, amended: `simplify_html` is only defined on content whose
transformed text still contains a product-card CSS rule when line 74 runs:
whenever the search over the content produced by the preceding
substitutions finds no rule, the unguarded `.group(0)` raises, and
`process_file` catches the exception and returns `False` rather than
propagating it. -/
theorem C10_amended (content : String)
    (h : searchProductCardRule (beforeRuleCheck content) = none) :
    simplify_html content = Except.error ("AttributeError") ∧
    process_file content = false := by
  have hs : simplify_html content = Except.error ("AttributeError") := by
    simp only [simplify_html, h]
  refine ⟨hs, ?_⟩
  unfold process_file
  rw [hs]

/-- Claim C10, witness: a rule-free input reaches the error branch and
`process_file` reports failure. -/
theorem C10_witness :
    searchProductCardRule (beforeRuleCheck ("hello")) = none ∧
    process_file ("hello") = false :=
  ⟨by decide, (C10_amended ("hello") (by decide)).2⟩

end Catalog

